import Mathlib

/-!
Shallow embedding of `music-finder-app/backend/playlist_algorithm.py`.

Python floats are modelled as rationals (`ℚ`), exact for all the decimal
constants the source uses.  The placeholder randomness drawn by
`extract_track_features` (one `random.randint` for the tempo and five
`random.uniform(0,1)` draws) is modelled by an explicit `Rand` record; the
stateful generator is modelled by an oracle `ℕ → Rand` together with a
counter that advances by one on every extraction call, so that every call
sees a fresh, arbitrary draw.  All theorems quantify over the oracle and
therefore hold for every possible sequence of random draws.

A Python track is a dict accessed with `.get` and `["id"]`; it is modelled
as a structure whose `id` is required (the data model's required unique
identifier) and whose other fields carry the `.get` defaults used by the
source (`duration`/`bpm` default 0, `key` default "", `title` optional
because the source uses two different defaults for it).
-/

namespace MusicFinder

/-- One bundle of random draws consumed by a single call of
`extract_track_features`: the `random.randint(90, 140)` tempo placeholder
and the five `random.uniform(0, 1)` quality scores. -/
structure Rand where
  bpm : ℕ
  energy : ℚ
  danceability : ℚ
  acousticness : ℚ
  instrumentalness : ℚ
  valence : ℚ
deriving Repr, DecidableEq

/-- A track record as consumed by the algorithm (Python dict).  `id` is the
required unique identifier (`track["id"]`); the remaining fields model the
`.get` accesses with their source defaults. -/
structure Track where
  id : String
  title : Option String
  duration : ℕ
  bpm : ℕ
  key : String
deriving Repr, DecidableEq

instance : Inhabited Track := ⟨{ id := "", title := none, duration := 0, bpm := 0, key := "" }⟩

/-- The feature dict produced by `extract_track_features`. -/
structure Features where
  bpm : ℕ
  key : String
  energy : ℚ
  danceability : ℚ
  acousticness : ℚ
  instrumentalness : ℚ
  valence : ℚ
  sonic_signature : ℚ
  sonic_cluster : String
deriving Repr, DecidableEq

/-- `extract_track_features` (playlist_algorithm.py lines 7-51): keeps the
track's bpm when non-zero, otherwise the random placeholder; passes the key
through; the five quality scores are the random draws; the sonic signature
is the fixed 0.3/0.3/0.2/0.1/0.1 weighted sum and the sonic cluster its
step function. -/
def extract_track_features (track : Track) (r : Rand) : Features :=
  let bpm := if track.bpm = 0 then r.bpm else track.bpm
  let energy := r.energy
  let danceability := r.danceability
  let acousticness := r.acousticness
  let instrumentalness := r.instrumentalness
  let valence := r.valence
  let sonic_signature :=
    energy * (3/10) + danceability * (3/10) + acousticness * (2/10) +
      instrumentalness * (1/10) + valence * (1/10)
  let sonic_cluster :=
    if sonic_signature < 3/10 then "ambient"
    else if sonic_signature < 5/10 then "downtempo"
    else if sonic_signature < 7/10 then "groovy"
    else "energetic"
  { bpm := bpm, key := track.key, energy := energy, danceability := danceability,
    acousticness := acousticness, instrumentalness := instrumentalness,
    valence := valence, sonic_signature := sonic_signature,
    sonic_cluster := sonic_cluster }

/-- The `circle_of_fifths` dict literal of `calculate_key_compatibility`
(lines 69-86); `.get(key1, [])` is the `[]` default branch. -/
def circle_of_fifths : String → List String
  | "C" => ["G", "F", "Am"]
  | "G" => ["D", "C", "Em"]
  | "D" => ["A", "G", "Bm"]
  | "A" => ["E", "D", "F#m"]
  | "E" => ["B", "A", "C#m"]
  | "B" => ["F#", "E", "G#m"]
  | "F#" => ["C#", "B", "D#m"]
  | "C#" => ["G#", "F#", "A#m"]
  | "G#" => ["D#", "C#", "Fm"]
  | "D#" => ["A#", "G#", "Cm"]
  | "A#" => ["F", "D#", "Gm"]
  | "F" => ["C", "A#", "Dm"]
  | "Am" => ["Em", "Dm", "C"]
  | "Em" => ["Bm", "Am", "G"]
  | _ => []

/-- `calculate_key_compatibility` (lines 53-92).  Python's `not key` on a
string is the empty-string test. -/
def calculate_key_compatibility (key1 key2 : String) : ℚ :=
  if key1 = "" ∨ key2 = "" then 5/10
  else if key1 = key2 then 1
  else if key2 ∈ circle_of_fifths key1 then 8/10
  else 3/10

/-- The per-style weight records of `calculate_transition_score`. -/
structure Weights where
  bpm_diff : ℚ
  key_compatibility : ℚ
  energy_diff : ℚ
  sonic_cluster : ℚ
deriving Repr, DecidableEq

/-- The `if style == "smooth" / elif "energetic" / else` weight table of
`calculate_transition_score` (lines 100-120); any other string falls into
the `minimal` branch exactly as in the source. -/
def styleWeights (style : String) : Weights :=
  if style = "smooth" then
    { bpm_diff := -12/10, key_compatibility := 15/10, energy_diff := -7/10, sonic_cluster := 8/10 }
  else if style = "energetic" then
    { bpm_diff := -5/10, key_compatibility := 8/10, energy_diff := 6/10, sonic_cluster := 4/10 }
  else
    { bpm_diff := -15/10, key_compatibility := 12/10, energy_diff := -1, sonic_cluster := 1 }

/-- `calculate_transition_score` (lines 94-146): weighted sum of the
clamped normalized bpm difference, the key compatibility, the absolute
energy difference and the binary sonic-cluster match. -/
def calculate_transition_score (track1 track2 : Features) (style : String) : ℚ :=
  let weights := styleWeights style
  let bpm_diff : ℚ := |(track1.bpm : ℚ) - (track2.bpm : ℚ)|
  let energy_diff : ℚ := |track1.energy - track2.energy|
  let key_compatibility := calculate_key_compatibility track1.key track2.key
  let sonic_cluster_score : ℚ := if track1.sonic_cluster = track2.sonic_cluster then 1 else 5/10
  let normalized_bpm_diff := min (bpm_diff / 50) 1
  weights.bpm_diff * normalized_bpm_diff +
    weights.key_compatibility * key_compatibility +
    weights.energy_diff * energy_diff +
    weights.sonic_cluster * sonic_cluster_score

/-- The failure taxonomy of the core: an empty seed list (the source fails
at its unchecked `tracks_with_features[0]` access) or a seed track without
its required identifier.  With `Track.id` a required field of the model
only the first case is representable. -/
inductive InputError where
  | emptySeed
  | missingId
deriving Repr, DecidableEq

/-- A pool entry: the `{"track": ..., "features": ...}` dict built at the
top of `create_dj_playlist` (lines 165-171). -/
structure TrackF where
  track : Track
  features : Features
deriving Repr, DecidableEq

/-- The playlist dict assembled at lines 213-219. -/
structure Playlist where
  name : String
  tracks : List Track
  duration_seconds : ℚ
  transition_style : String
  track_count : ℕ
deriving Repr, DecidableEq

/-- The feature-extraction pass over the seed list (lines 165-171), with
the oracle counter threaded: the track at position `i` consumes draw
`k + i`. -/
def featuresFrom (oracle : ℕ → Rand) : ℕ → List Track → List TrackF
  | _, [] => []
  | k, t :: ts => ⟨t, extract_track_features t (oracle k)⟩ :: featuresFrom oracle (k + 1) ts

/-- The skip test of line 190: a pool entry is a candidate when its track's
identifier is not among the identifiers already in the playlist. -/
def isCandidate (playlist_tracks : List Track) (td : TrackF) : Bool :=
  decide (td.track.id ∉ playlist_tracks.map Track.id)

/-- The scoring pass of lines 187-198: every pool entry that passes the
skip test is paired with its transition score against the last track's
fresh feature vector, in pool order. -/
def scoreCandidates (style : String) (last_features : Features)
    (track_pool : List TrackF) (playlist_tracks : List Track) : List (TrackF × ℚ) :=
  (track_pool.filter (isCandidate playlist_tracks)).map
    (fun td => (td, calculate_transition_score last_features td.features style))

/-- Lines 201-208: Python's stable `sort(key=lambda x: x[1], reverse=True)`
followed by the emptiness check and `transition_scores[0]`.  A stable
descending sort is `insertionSort` under "left score at least right
score"; its head, when one exists, is the chosen entry. -/
def pickBest (transition_scores : List (TrackF × ℚ)) : Option (TrackF × ℚ) :=
  (List.insertionSort (fun a b => b.2 ≤ a.2) transition_scores).head?

/-- The `while` loop of lines 183-210.  `k` is the oracle counter: each
iteration re-extracts the last track's features with a fresh draw.
Termination: the appended entry stops being a candidate, so the number of
pool entries whose identifier is not yet in the playlist strictly drops. -/
def buildLoop (style : String) (target_duration_seconds : ℚ) (oracle : ℕ → Rand)
    (track_pool : List TrackF) (k : ℕ) (playlist_tracks : List Track)
    (current_duration : ℚ) : List Track × ℚ :=
  if current_duration < target_duration_seconds ∧ 1 < track_pool.length then
    match hb : pickBest (scoreCandidates style
        (extract_track_features (playlist_tracks.getLastD default) (oracle k))
        track_pool playlist_tracks) with
    | none => (playlist_tracks, current_duration)
    | some best =>
        buildLoop style target_duration_seconds oracle track_pool (k + 1)
          (playlist_tracks ++ [best.1.track])
          (current_duration + (best.1.track.duration : ℚ) / 1000)
  else (playlist_tracks, current_duration)
termination_by (track_pool.filter (isCandidate playlist_tracks)).length
decreasing_by
  have hmem : best ∈ scoreCandidates style
      (extract_track_features (playlist_tracks.getLastD default) (oracle k))
      track_pool playlist_tracks := by
    rw [pickBest, List.head?_eq_some_iff] at hb
    obtain ⟨tail, ht⟩ := hb
    have hmem' : best ∈ List.insertionSort (fun a b : TrackF × ℚ => b.2 ≤ a.2)
        (scoreCandidates style
          (extract_track_features (playlist_tracks.getLastD default) (oracle k))
          track_pool playlist_tracks) := by
      rw [ht]; exact List.mem_cons_self _ _
    exact (List.perm_insertionSort _ _).mem_iff.mp hmem'
  obtain ⟨td, htd, rfl⟩ := List.mem_map.mp hmem
  have hsub : List.Sublist (track_pool.filter (isCandidate (playlist_tracks ++ [td.track])))
      (track_pool.filter (isCandidate playlist_tracks)) := by
    apply List.monotone_filter_right
    intro a ha
    simp only [isCandidate, decide_eq_true_eq, List.map_append, List.map_cons,
      List.map_nil, List.mem_append, List.mem_cons] at ha ⊢
    intro hin
    exact ha (Or.inl hin)
  refine Nat.lt_of_le_of_ne hsub.length_le ?_
  intro hlen
  have heq := hsub.eq_of_length hlen
  have htd' : td ∈ track_pool.filter (isCandidate (playlist_tracks ++ [td.track])) :=
    heq ▸ htd
  have hfalse : isCandidate (playlist_tracks ++ [td.track]) td = true :=
    (List.mem_filter.mp htd').2
  simp [isCandidate] at hfalse

/-- `create_dj_playlist` (lines 148-221).  The unchecked
`tracks_with_features[0]` access on an empty seed list is the input
failure; on a non-empty list the function is total and returns the
playlist dict of lines 213-219.  The loop's oracle counter starts past the
draws consumed by the initial feature-extraction pass. -/
def create_dj_playlist (seed_tracks : List Track) (duration_minutes : ℕ)
    (transition_style : String) (oracle : ℕ → Rand) : Except InputError Playlist :=
  match seed_tracks with
  | [] => .error .emptySeed
  | t0 :: rest =>
      let tracks_with_features := featuresFrom oracle 0 (t0 :: rest)
      let current_duration : ℚ := (t0.duration : ℚ) / 1000
      let target_duration_seconds : ℚ := (duration_minutes : ℚ) * 60
      let result := buildLoop transition_style target_duration_seconds oracle
        tracks_with_features (t0 :: rest).length [t0] current_duration
      .ok { name := "DJ Mix - " ++ t0.title.getD "Custom Mix",
            tracks := result.1,
            duration_seconds := result.2,
            transition_style := transition_style,
            track_count := result.1.length }

/-- The track sequence of a sequencer result, empty on failure; lets the
structural invariants be stated without a success hypothesis. -/
def tracksOf : Except InputError Playlist → List Track
  | .error _ => []
  | .ok p => p.tracks

/-- One entry of the energy profile built at lines 233-240. -/
structure ProfileEntry where
  title : String
  energy : ℚ
  danceability : ℚ
  bpm : ℕ
  key : String
  sonic_cluster : String
deriving Repr, DecidableEq

/-- The profile dict a single track contributes (lines 233-240). -/
def profileEntry (track : Track) (features : Features) : ProfileEntry :=
  { title := track.title.getD "Unknown",
    energy := features.energy,
    danceability := features.danceability,
    bpm := features.bpm,
    key := features.key,
    sonic_cluster := features.sonic_cluster }

/-- The per-track extraction-and-profile pass of lines 231-240, with the
oracle counter threaded exactly as in `featuresFrom`. -/
def profileFrom (oracle : ℕ → Rand) : ℕ → List Track → List ProfileEntry
  | _, [] => []
  | k, t :: ts =>
      profileEntry t (extract_track_features t (oracle k)) :: profileFrom oracle (k + 1) ts

/-- Line 244: `[abs(v[i] - v[i-1]) for i in range(1, len(v))]`. -/
def energyChanges : List ℚ → List ℚ
  | [] => []
  | [_] => []
  | a :: b :: rest => |b - a| :: energyChanges (b :: rest)

/-- `np.mean` on a non-empty list of rationals. -/
def listMean (l : List ℚ) : ℚ := l.sum / l.length

/-- `np.var` (population variance) on a non-empty list of rationals. -/
def listVar (l : List ℚ) : ℚ := ((l.map (fun x => (x - listMean l) ^ 2)).sum) / l.length

/-- Python's `max` on a non-empty list. -/
def maxList : List ℚ → ℚ
  | [] => 0
  | x :: xs => xs.foldl max x

/-- Python's `min` on a non-empty list. -/
def minList : List ℚ → ℚ
  | [] => 0
  | x :: xs => xs.foldl min x

/-- The analysis dict assembled at lines 246-253. -/
structure EnergyAnalysis where
  energy_profile : List ProfileEntry
  avg_energy : ℚ
  energy_variance : ℚ
  avg_energy_change : ℚ
  max_energy : ℚ
  min_energy : ℚ
deriving Repr, DecidableEq

/-- `analyze_playlist_energy` (lines 223-255): re-extracts a fresh feature
vector per track in playlist order, builds the profile, and guards every
aggregate with the source's emptiness checks (`... if energy_values else
0`). -/
def analyze_playlist_energy (playlist : Playlist) (oracle : ℕ → Rand) : EnergyAnalysis :=
  let energy_profile := profileFrom oracle 0 playlist.tracks
  let energy_values := energy_profile.map ProfileEntry.energy
  let energy_changes := energyChanges energy_values
  { energy_profile := energy_profile,
    avg_energy := if energy_values = [] then 0 else listMean energy_values,
    energy_variance := if energy_values = [] then 0 else listVar energy_values,
    avg_energy_change := if energy_changes = [] then 0 else listMean energy_changes,
    max_energy := if energy_values = [] then 0 else maxList energy_values,
    min_energy := if energy_values = [] then 0 else minList energy_values }

/-- A concrete oracle used by the concrete evaluation theorems. -/
def testOracle : ℕ → Rand := fun _ =>
  { bpm := 100, energy := 1/2, danceability := 1/2, acousticness := 1/2,
    instrumentalness := 1/2, valence := 1/2 }

/-- A concrete feature vector used by the concrete evaluation theorems. -/
def fv1 : Features :=
  { bpm := 120, key := "C", energy := 0, danceability := 0, acousticness := 0,
    instrumentalness := 0, valence := 0, sonic_signature := 0, sonic_cluster := "groovy" }

/-- `fv1` with a different energy: same bpm, key and sonic cluster. -/
def fv2 : Features :=
  { bpm := 120, key := "C", energy := 1, danceability := 0, acousticness := 0,
    instrumentalness := 0, valence := 0, sonic_signature := 0, sonic_cluster := "groovy" }

/-- A concrete track used by the concrete evaluation theorems. -/
def trackA : Track :=
  { id := "t1", title := some "Alpha", duration := 240000, bpm := 124, key := "Am" }

/-- A second concrete track with a distinct identifier. -/
def trackB : Track :=
  { id := "t2", title := some "Beta", duration := 300000, bpm := 126, key := "G" }

/-- An empty playlist value for the empty-analysis evaluation. -/
def emptyPlaylist : Playlist :=
  { name := "DJ Mix - X", tracks := [], duration_seconds := 0,
    transition_style := "smooth", track_count := 0 }

/-- A concrete pool entry for the concrete evaluation theorems. -/
def tdA : TrackF := ⟨trackA, fv1⟩

/-- A second concrete pool entry for the concrete evaluation theorems. -/
def tdB : TrackF := ⟨trackB, fv2⟩

end MusicFinder

namespace MusicFinder

/-! ## Theorems -/

/-- C9: `calculate_key_compatibility` only ever returns 0.3, 0.5, 0.8 or
1.0, and whenever either argument is the empty string it returns exactly
0.5. -/
theorem key_compatibility_range (key1 key2 : String) :
    (calculate_key_compatibility key1 key2 = 3/10 ∨
      calculate_key_compatibility key1 key2 = 5/10 ∨
      calculate_key_compatibility key1 key2 = 8/10 ∨
      calculate_key_compatibility key1 key2 = 1) ∧
    (key1 = "" ∨ key2 = "" → calculate_key_compatibility key1 key2 = 5/10) := by
  constructor
  · unfold calculate_key_compatibility
    split
    · exact Or.inr (Or.inl rfl)
    · split
      · exact Or.inr (Or.inr (Or.inr rfl))
      · split
        · exact Or.inr (Or.inr (Or.inl rfl))
        · exact Or.inl rfl
  · intro h
    unfold calculate_key_compatibility
    rw [if_pos h]

/-- Concrete instance of `key_compatibility_range`: the empty first key
yields 0.5. -/
theorem key_compatibility_range_witness :
    calculate_key_compatibility "" "C" = 5/10 :=
  (key_compatibility_range "" "C").2 (Or.inl rfl)

/-- C5 counterexample: at the empty key the source returns 0.5, not 1.0,
because the unknown-key check precedes the equality check. -/
theorem key_compatibility_empty_self :
    calculate_key_compatibility "" "" = 5/10 ∧ calculate_key_compatibility "" "" ≠ 1 := by
  constructor
  · norm_num [calculate_key_compatibility]
  · norm_num [calculate_key_compatibility]

/-- C5 amended: for every NON-empty key `k`,
`calculate_key_compatibility k k = 1.0`; the empty key falls into the
unknown-key branch and yields 0.5 instead. -/
theorem key_compatibility_self (k : String) (h : k ≠ "") :
    calculate_key_compatibility k k = 1 := by
  unfold calculate_key_compatibility
  rw [if_neg (by simp [h]), if_pos rfl]

/-- Concrete instance of `key_compatibility_self` at the key "Am". -/
theorem key_compatibility_self_witness :
    "Am" ≠ "" ∧ calculate_key_compatibility "Am" "Am" = 1 :=
  ⟨by decide, key_compatibility_self "Am" (by decide)⟩

/-- C3: the adjacency lookup of the source is not symmetric: `"Bm"` is
listed among the neighbours of `"D"`, but `"Bm"` has no entry of its own,
so the two directions return 0.8 and 0.3 respectively. -/
theorem key_compatibility_asymmetric :
    calculate_key_compatibility "D" "Bm" = 8/10 ∧
      calculate_key_compatibility "Bm" "D" = 3/10 ∧
      calculate_key_compatibility "D" "Bm" ≠ calculate_key_compatibility "Bm" "D" := by
  have h1 : calculate_key_compatibility "D" "Bm" = 8/10 := by
    unfold calculate_key_compatibility
    rw [if_neg (by decide), if_neg (by decide), if_pos (by decide)]
  have h2 : calculate_key_compatibility "Bm" "D" = 3/10 := by
    unfold calculate_key_compatibility
    rw [if_neg (by decide), if_neg (by decide), if_neg (by decide)]
  refine ⟨h1, h2, ?_⟩
  rw [h1, h2]
  norm_num

/-- C1 counterexample: two feature vectors with identical bpm, key and
sonic cluster but different energies; the energy-difference contribution
does not vanish and the smooth-style score differs from the
key-compatibility and cluster-match terms alone. -/
theorem transition_score_energy_term_remains :
    fv1.bpm = fv2.bpm ∧ fv1.key = fv2.key ∧ fv1.sonic_cluster = fv2.sonic_cluster ∧
      (styleWeights "smooth").energy_diff * |fv1.energy - fv2.energy| ≠ 0 ∧
      calculate_transition_score fv1 fv2 "smooth" ≠
        (styleWeights "smooth").key_compatibility *
            calculate_key_compatibility fv1.key fv2.key +
          (styleWeights "smooth").sonic_cluster * 1 := by
  refine ⟨rfl, rfl, rfl, ?_, ?_⟩ <;>
    norm_num [calculate_transition_score, calculate_key_compatibility, styleWeights, fv1, fv2]

/-- C1 amended: for every style string and every pair of feature vectors
with identical bpm, key, sonic cluster AND energy, the transition score
reduces to the key-compatibility and cluster-match terms only; the
tempo-difference and energy-difference contributions vanish. -/
theorem transition_score_reduces (style : String) (f1 f2 : Features)
    (hbpm : f1.bpm = f2.bpm) (hkey : f1.key = f2.key)
    (hcl : f1.sonic_cluster = f2.sonic_cluster) (hen : f1.energy = f2.energy) :
    calculate_transition_score f1 f2 style =
      (styleWeights style).key_compatibility * calculate_key_compatibility f1.key f2.key +
        (styleWeights style).sonic_cluster * 1 := by
  unfold calculate_transition_score
  rw [hbpm, hkey, hcl, hen]
  norm_num

/-- Concrete instance of `transition_score_reduces` on an identical pair. -/
theorem transition_score_reduces_witness :
    calculate_transition_score fv1 fv1 "smooth" =
      (styleWeights "smooth").key_compatibility * calculate_key_compatibility fv1.key fv1.key +
        (styleWeights "smooth").sonic_cluster * 1 :=
  transition_score_reduces "smooth" fv1 fv1 rfl rfl rfl rfl

/-- C10: the entry chosen from a non-empty scored candidate list is the
earliest entry attaining the maximal score: every entry before it scores
strictly less and every entry after it scores at most as much.  The
stable descending sort therefore breaks ties by original pool order. -/
theorem pickBest_earliest_max (transition_scores : List (TrackF × ℚ))
    (h : transition_scores ≠ []) :
    ∃ best pre post, pickBest transition_scores = some best ∧
      transition_scores = pre ++ best :: post ∧
      (∀ y ∈ pre, y.2 < best.2) ∧ (∀ y ∈ post, y.2 ≤ best.2) := by
  induction transition_scores with
  | nil => exact absurd rfl h
  | cons x xs ih =>
      cases xs with
      | nil => exact ⟨x, [], [], rfl, rfl, by simp, by simp⟩
      | cons y ys =>
          obtain ⟨best', pre', post', hpick', hsplit', hpre', hpost'⟩ := ih (by simp)
          rw [pickBest] at hpick'
          rcases hsort : List.insertionSort (fun a b : TrackF × ℚ => b.2 ≤ a.2) (y :: ys)
            with _ | ⟨b, tl⟩
          · rw [hsort] at hpick'; simp at hpick'
          · rw [hsort] at hpick'
            simp only [List.head?_cons, Option.some.injEq] at hpick'
            subst hpick'
            by_cases hcmp : b.2 ≤ x.2
            · refine ⟨x, [], y :: ys, ?_, rfl, by simp, ?_⟩
              · rw [pickBest]
                rw [show List.insertionSort (fun a b : TrackF × ℚ => b.2 ≤ a.2) (x :: y :: ys) =
                    List.orderedInsert (fun a b : TrackF × ℚ => b.2 ≤ a.2) x
                      (List.insertionSort (fun a b : TrackF × ℚ => b.2 ≤ a.2) (y :: ys)) from rfl,
                  hsort,
                  show List.orderedInsert (fun a b : TrackF × ℚ => b.2 ≤ a.2) x (b :: tl) =
                    if b.2 ≤ x.2 then x :: b :: tl
                    else b :: List.orderedInsert (fun a b : TrackF × ℚ => b.2 ≤ a.2) x tl from rfl,
                  if_pos hcmp, List.head?_cons]
              · intro z hz
                have hzb : z.2 ≤ b.2 := by
                  rw [hsplit'] at hz
                  rcases List.mem_append.mp hz with hz | hz
                  · exact le_of_lt (hpre' z hz)
                  · rcases List.mem_cons.mp hz with rfl | hz
                    · exact le_refl _
                    · exact hpost' z hz
                exact hzb.trans hcmp
            · refine ⟨b, x :: pre', post', ?_, by simp [hsplit'], ?_, hpost'⟩
              · rw [pickBest]
                rw [show List.insertionSort (fun a b : TrackF × ℚ => b.2 ≤ a.2) (x :: y :: ys) =
                    List.orderedInsert (fun a b : TrackF × ℚ => b.2 ≤ a.2) x
                      (List.insertionSort (fun a b : TrackF × ℚ => b.2 ≤ a.2) (y :: ys)) from rfl,
                  hsort,
                  show List.orderedInsert (fun a b : TrackF × ℚ => b.2 ≤ a.2) x (b :: tl) =
                    if b.2 ≤ x.2 then x :: b :: tl
                    else b :: List.orderedInsert (fun a b : TrackF × ℚ => b.2 ≤ a.2) x tl from rfl,
                  if_neg hcmp, List.head?_cons]
              · intro z hz
                rcases List.mem_cons.mp hz with rfl | hz
                · exact lt_of_not_le hcmp
                · exact hpre' z hz

/-- The identifiers of the pool entries are the identifiers of the tracks
they were built from. -/
lemma featuresFrom_map_id (oracle : ℕ → Rand) :
    ∀ (k : ℕ) (l : List Track),
      (featuresFrom oracle k l).map (fun td => td.track.id) = l.map Track.id := by
  intro k l
  induction l generalizing k with
  | nil => rfl
  | cons t ts ih => simp [featuresFrom, ih]

/-- The entry chosen by `pickBest` over `scoreCandidates` is a pool entry
that passes the skip test, and appending its track strictly shrinks the
candidate set. -/
lemma pickBest_spec (style : String) (lf : Features) (pool : List TrackF)
    (playlist : List Track) (best : TrackF × ℚ)
    (hb : pickBest (scoreCandidates style lf pool playlist) = some best) :
    best.1 ∈ pool ∧ isCandidate playlist best.1 = true ∧
      (pool.filter (isCandidate (playlist ++ [best.1.track]))).length <
        (pool.filter (isCandidate playlist)).length := by
  have hmem : best ∈ scoreCandidates style lf pool playlist := by
    rw [pickBest, List.head?_eq_some_iff] at hb
    obtain ⟨tail, ht⟩ := hb
    have hmem' : best ∈ List.insertionSort (fun a b : TrackF × ℚ => b.2 ≤ a.2)
        (scoreCandidates style lf pool playlist) := by
      rw [ht]; exact List.mem_cons_self _ _
    exact (List.perm_insertionSort _ _).mem_iff.mp hmem'
  obtain ⟨td, htd, rfl⟩ := List.mem_map.mp hmem
  refine ⟨(List.mem_filter.mp htd).1, (List.mem_filter.mp htd).2, ?_⟩
  have hsub : List.Sublist (pool.filter (isCandidate (playlist ++ [td.track])))
      (pool.filter (isCandidate playlist)) := by
    apply List.monotone_filter_right
    intro a ha
    simp only [isCandidate, decide_eq_true_eq, List.map_append, List.map_cons,
      List.map_nil, List.mem_append, List.mem_cons] at ha ⊢
    intro hin
    exact ha (Or.inl hin)
  refine Nat.lt_of_le_of_ne hsub.length_le ?_
  intro hlen
  have heq := hsub.eq_of_length hlen
  have htd' : td ∈ pool.filter (isCandidate (playlist ++ [td.track])) := heq ▸ htd
  have hfalse : isCandidate (playlist ++ [td.track]) td = true :=
    (List.mem_filter.mp htd').2
  simp [isCandidate] at hfalse

/-- Invariant of the selection loop: if the playlist so far has pairwise
distinct identifiers all drawn from the pool, then so does the playlist
the loop returns. -/
lemma buildLoop_invariant (style : String) (target : ℚ) (oracle : ℕ → Rand)
    (pool : List TrackF) :
    ∀ (n k : ℕ) (playlist : List Track) (dur : ℚ),
      (pool.filter (isCandidate playlist)).length ≤ n →
      (playlist.map Track.id).Nodup →
      (∀ t ∈ playlist, t.id ∈ pool.map (fun td => td.track.id)) →
      (((buildLoop style target oracle pool k playlist dur).1.map Track.id).Nodup ∧
        ∀ t ∈ (buildLoop style target oracle pool k playlist dur).1,
          t.id ∈ pool.map (fun td => td.track.id)) := by
  intro n
  induction n with
  | zero =>
      intro k playlist dur hle hnd hsub
      have hempty : pool.filter (isCandidate playlist) = [] :=
        List.length_eq_zero.mp (Nat.le_zero.mp hle)
      rw [buildLoop]
      split
      · split
        · exact ⟨hnd, hsub⟩
        · rename_i best hb
          rw [scoreCandidates, hempty] at hb
          simp [pickBest] at hb
      · exact ⟨hnd, hsub⟩
  | succ n ih =>
      intro k playlist dur hle hnd hsub
      rw [buildLoop]
      split
      · split
        · exact ⟨hnd, hsub⟩
        · rename_i best hb
          obtain ⟨hpoolmem, hcand, hlt⟩ := pickBest_spec _ _ _ _ _ hb
          have hnotin : best.1.track.id ∉ playlist.map Track.id := by
            simpa [isCandidate] using hcand
          apply ih
          · exact Nat.le_of_lt_succ (Nat.lt_of_lt_of_le hlt hle)
          · rw [List.map_append]
            simp only [List.map_cons, List.map_nil]
            rw [List.nodup_append]
            exact ⟨hnd, List.nodup_singleton _, by simpa using hnotin⟩
          · intro t ht
            rcases List.mem_append.mp ht with h | h
            · exact hsub t h
            · rw [List.mem_singleton.mp h]
              exact List.mem_map.mpr ⟨best.1, hpoolmem, rfl⟩
      · exact ⟨hnd, hsub⟩

/-- Concrete instance of `pickBest_earliest_max` on a two-entry list. -/
theorem pickBest_earliest_max_witness :
    ([(tdA, (1 : ℚ)), (tdB, 2)] : List (TrackF × ℚ)) ≠ [] ∧
      ∃ best pre post, pickBest [(tdA, (1 : ℚ)), (tdB, 2)] = some best ∧
        ([(tdA, (1 : ℚ)), (tdB, 2)] : List (TrackF × ℚ)) = pre ++ best :: post ∧
        (∀ y ∈ pre, y.2 < best.2) ∧ (∀ y ∈ post, y.2 ≤ best.2) :=
  ⟨by simp, pickBest_earliest_max [(tdA, (1 : ℚ)), (tdB, 2)] (by simp)⟩

/-- C2: the empty seed list fails with the empty-seed `InputError`, and
that is the only representable failure: every non-empty seed list of
well-formed tracks yields a complete playlist. -/
theorem create_playlist_total (seed_tracks : List Track) (duration_minutes : ℕ)
    (transition_style : String) (oracle : ℕ → Rand) :
    (seed_tracks = [] →
        create_dj_playlist seed_tracks duration_minutes transition_style oracle =
          .error InputError.emptySeed) ∧
      (seed_tracks ≠ [] →
        ∃ p, create_dj_playlist seed_tracks duration_minutes transition_style oracle =
          .ok p) := by
  cases seed_tracks with
  | nil => exact ⟨fun _ => rfl, fun hne => absurd rfl hne⟩
  | cons t0 rest => exact ⟨fun hcontra => (by cases hcontra), fun _ => ⟨_, rfl⟩⟩

/-- Concrete instance of `create_playlist_total` on the empty seed list. -/
theorem create_playlist_total_witness :
    create_dj_playlist [] 60 "smooth" testOracle = .error InputError.emptySeed :=
  (create_playlist_total [] 60 "smooth" testOracle).1 rfl

/-- C4: for every seed list, target and oracle, the returned playlist
never contains a track whose identifier already appears earlier: the
identifiers of the returned track sequence are pairwise distinct. -/
theorem playlist_ids_nodup (seed_tracks : List Track) (duration_minutes : ℕ)
    (transition_style : String) (oracle : ℕ → Rand) :
    ((tracksOf (create_dj_playlist seed_tracks duration_minutes transition_style
        oracle)).map Track.id).Nodup := by
  cases seed_tracks with
  | nil => simp [create_dj_playlist, tracksOf]
  | cons t0 rest =>
      have hinv := buildLoop_invariant transition_style ((duration_minutes : ℚ) * 60) oracle
        (featuresFrom oracle 0 (t0 :: rest))
        (((featuresFrom oracle 0 (t0 :: rest)).filter (isCandidate [t0])).length)
        (t0 :: rest).length [t0] ((t0.duration : ℚ) / 1000)
        (le_refl _) (by simp)
        (by
          intro t ht
          rw [List.mem_singleton.mp ht, featuresFrom_map_id]
          exact List.mem_map.mpr ⟨t0, List.mem_cons_self _ _, rfl⟩)
      exact hinv.1

/-- C8: the sequencer is a total function of its inputs in this embedding
(the loop recursion is well founded on the number of remaining
candidates), and the returned playlist never has more tracks than the
seed list: the target duration is only a soft upper bound. -/
theorem playlist_length_le (seed_tracks : List Track) (duration_minutes : ℕ)
    (transition_style : String) (oracle : ℕ → Rand) :
    (tracksOf (create_dj_playlist seed_tracks duration_minutes transition_style
        oracle)).length ≤ seed_tracks.length := by
  cases seed_tracks with
  | nil => simp [create_dj_playlist, tracksOf]
  | cons t0 rest =>
      obtain ⟨hnd, hmem⟩ := buildLoop_invariant transition_style
        ((duration_minutes : ℚ) * 60) oracle (featuresFrom oracle 0 (t0 :: rest))
        (((featuresFrom oracle 0 (t0 :: rest)).filter (isCandidate [t0])).length)
        (t0 :: rest).length [t0] ((t0.duration : ℚ) / 1000)
        (le_refl _) (by simp)
        (by
          intro t ht
          rw [List.mem_singleton.mp ht, featuresFrom_map_id]
          exact List.mem_map.mpr ⟨t0, List.mem_cons_self _ _, rfl⟩)
      have hsub : (buildLoop transition_style ((duration_minutes : ℚ) * 60) oracle
          (featuresFrom oracle 0 (t0 :: rest)) (t0 :: rest).length [t0]
          ((t0.duration : ℚ) / 1000)).1.map Track.id ⊆
          (featuresFrom oracle 0 (t0 :: rest)).map (fun td => td.track.id) := by
        intro x hx
        obtain ⟨t, ht, rfl⟩ := List.mem_map.mp hx
        exact hmem t ht
      have hlen := (hnd.subperm hsub).length_le
      rw [List.length_map, featuresFrom_map_id, List.length_map] at hlen
      exact hlen

/-- C6: a single-track seed yields a playlist holding exactly that track:
`track_count` is 1 and equals the length of the track sequence, and
`duration_seconds` is the track's millisecond duration divided by 1000. -/
theorem single_seed_playlist (t : Track) (duration_minutes : ℕ)
    (transition_style : String) (oracle : ℕ → Rand) :
    ∃ p, create_dj_playlist [t] duration_minutes transition_style oracle = .ok p ∧
      p.track_count = 1 ∧ p.duration_seconds = (t.duration : ℚ) / 1000 ∧
      p.track_count = p.tracks.length := by
  have hstep : buildLoop transition_style ((duration_minutes : ℚ) * 60) oracle
      (featuresFrom oracle 0 [t]) 1 [t] ((t.duration : ℚ) / 1000) =
      ([t], (t.duration : ℚ) / 1000) := by
    rw [buildLoop]
    simp [featuresFrom]
  refine ⟨_, rfl, ?_, ?_, ?_⟩
  · show (buildLoop transition_style ((duration_minutes : ℚ) * 60) oracle
        (featuresFrom oracle 0 [t]) 1 [t] ((t.duration : ℚ) / 1000)).1.length = 1
    rw [hstep]
    rfl
  · show (buildLoop transition_style ((duration_minutes : ℚ) * 60) oracle
        (featuresFrom oracle 0 [t]) 1 [t] ((t.duration : ℚ) / 1000)).2 =
      (t.duration : ℚ) / 1000
    rw [hstep]
  · rfl

/-- The profile pass produces one entry per track. -/
lemma profileFrom_length (oracle : ℕ → Rand) :
    ∀ (k : ℕ) (l : List Track), (profileFrom oracle k l).length = l.length := by
  intro k l
  induction l generalizing k with
  | nil => rfl
  | cons t ts ih => simp [profileFrom, ih]

/-- The consecutive-difference list has one entry fewer than its input. -/
lemma energyChanges_length : ∀ l : List ℚ, (energyChanges l).length = l.length - 1
  | [] => rfl
  | [_] => rfl
  | a :: b :: rest => by
      simpa [energyChanges] using energyChanges_length (b :: rest)

/-- C7: the analyzer emits exactly one profile entry per playlist track;
the consecutive-difference list feeding the mean-change statistic has
exactly N−1 entries; the mean-change statistic is the mean of that list
when it is non-empty and 0 otherwise; and on an empty playlist the
profile is empty and all five aggregates are 0. -/
theorem energy_analysis_shape (playlist : Playlist) (oracle : ℕ → Rand) :
    (analyze_playlist_energy playlist oracle).energy_profile.length =
        playlist.tracks.length ∧
      (energyChanges ((analyze_playlist_energy playlist oracle).energy_profile.map
          ProfileEntry.energy)).length = playlist.tracks.length - 1 ∧
      (analyze_playlist_energy playlist oracle).avg_energy_change =
        (if energyChanges ((analyze_playlist_energy playlist oracle).energy_profile.map
            ProfileEntry.energy) = [] then 0
          else listMean (energyChanges ((analyze_playlist_energy playlist
            oracle).energy_profile.map ProfileEntry.energy))) ∧
      (playlist.tracks = [] →
        (analyze_playlist_energy playlist oracle).energy_profile = [] ∧
        (analyze_playlist_energy playlist oracle).avg_energy = 0 ∧
        (analyze_playlist_energy playlist oracle).energy_variance = 0 ∧
        (analyze_playlist_energy playlist oracle).avg_energy_change = 0 ∧
        (analyze_playlist_energy playlist oracle).max_energy = 0 ∧
        (analyze_playlist_energy playlist oracle).min_energy = 0) := by
  refine ⟨?_, ?_, rfl, ?_⟩
  · show (profileFrom oracle 0 playlist.tracks).length = playlist.tracks.length
    exact profileFrom_length oracle 0 playlist.tracks
  · show (energyChanges ((profileFrom oracle 0 playlist.tracks).map
        ProfileEntry.energy)).length = playlist.tracks.length - 1
    rw [energyChanges_length, List.length_map, profileFrom_length]
  · intro h
    simp [analyze_playlist_energy, h, profileFrom, energyChanges]

/-- Concrete instance of `energy_analysis_shape` on the empty playlist. -/
theorem energy_analysis_shape_witness :
    (analyze_playlist_energy emptyPlaylist testOracle).energy_profile = [] ∧
      (analyze_playlist_energy emptyPlaylist testOracle).avg_energy = 0 ∧
      (analyze_playlist_energy emptyPlaylist testOracle).energy_variance = 0 ∧
      (analyze_playlist_energy emptyPlaylist testOracle).avg_energy_change = 0 ∧
      (analyze_playlist_energy emptyPlaylist testOracle).max_energy = 0 ∧
      (analyze_playlist_energy emptyPlaylist testOracle).min_energy = 0 :=
  (energy_analysis_shape emptyPlaylist testOracle).2.2.2 rfl

end MusicFinder
